import Mathlib

/-!
Verification development for the nitro replay engine.

Shallow embedding of the replay entrypoint (cmd/replay/main.go) and of the
sync monitor (arbnode/sync_monitor.go). Byte buffers are lists of naturals,
hashes are naturals used opaquely, and Go functions that can return an error
or hit a runtime panic are embedded into the Except monad with a structured
error type that keeps returned error values and runtime panics apart.
-/

/-- A byte buffer. Go byte slices become lists of naturals. -/
abbrev Bytes := List Nat

/-- A 32-byte hash value, used opaquely as a content address. -/
abbrev Hash := Nat

/-- 2 to the 64: the modulus of unsigned 64-bit Go arithmetic. -/
def U64MOD : Nat := 2 ^ 64

/-- The three preimage kinds of the oracle (arbutil preimage types). -/
inductive PreimageKind where
  | keccak256
  | sha2_256
  | ethVersionedBlobHash
deriving DecidableEq, Repr

/-! ## Celestia square resolver (PreimageCelestiaReader.Read) -/

/-- Errors of the Celestia Read resolver. Constructors named after the
fmt.Errorf messages of cmd/replay/main.go; goPanic marks a Go runtime
panic (slice bounds out of range, index out of range, division by zero)
as opposed to a returned error value. -/
inductive CelErr where
  | goPanic (reason : String)
  | nmtErr (msg : String)
  | startIndexOverOds (startIndex odsSize : Nat)
  | sharesLengthZero
  | firstRowSharesOverLength (firstRowShares sharesLength : Nat)
  | remainingModZero (m : Nat)
  | endRowTimesOdsZero (v : Nat)
  | endIndexOverOds (endIndex odsSize : Nat)
  | odsOverRowLength (odsSize rowLen : Nat)
  | startOverEndPlusOne (startIndex endIndex : Nat)
  | shortShare (size : Nat)
  | lengthMismatch (sequenceLength dataLen : Nat)
deriving DecidableEq, Repr

/-- Go slice expression s[a:]: drops the first a elements; a Go runtime
panic fires when a exceeds the length. -/
def goSliceFrom (s : Bytes) (a : Nat) : Except CelErr Bytes :=
  if a > s.length then .error (.goPanic "slice bounds out of range")
  else .ok (s.drop a)

/-- Go indexing xs[i] on a list, panicking when i is out of range. -/
def goIndex {α : Type} (xs : List α) (i : Nat) : Except CelErr α :=
  match xs.get? i with
  | some x => .ok x
  | none => .error (.goPanic "index out of range")

/-- big-endian combination of a byte list (binary.BigEndian.Uint32 on a
4-byte slice). -/
def beUint32 (bs : Bytes) : Nat :=
  bs.foldl (fun acc b => acc * 256 + b) 0

/-- Modelled from the spec: NAMESPACE_SIZE, the fixed Celestia namespace
width (tree.NamespaceSize of the das/celestia/tree package, which is not
under src/). The spec fixes the namespace prefix of a share at 29 bytes. -/
def NamespaceSize : Nat := 29

/-- Celestia blob pointer (celestia.BlobPointer), big-endian u64 and hash
fields. -/
structure BlobPointer where
  blockHeight : Nat
  start : Nat
  sharesLength : Nat
  txCommitment : Hash
  dataRoot : Hash
deriving DecidableEq, Repr

/-- Reconstructed view of the touched part of the data square
(celestia.SquareData). -/
structure SquareData where
  rowRoots : List Hash
  columnRoots : List Hash
  rows : List (List Bytes)
  squareSize : Nat
  startRow : Nat
  endRow : Nat
deriving DecidableEq, Repr

/-- Index arithmetic of PreimageCelestiaReader.Read
(cmd/replay/main.go lines 168-236): derives
(startRow, startIndex, endRow, endIndex) from the square size and the
pointer, running every check of the source in source order. The division
blobPointer.Start / squareSize panics in Go when squareSize is zero. -/
def celestiaIndices (squareSize start sharesLength : Nat) :
    Except CelErr (Nat × Nat × Nat × Nat) :=
  let odsSize := squareSize / 2
  if squareSize = 0 then .error (.goPanic "integer divide by zero") else
  let startRow := start / squareSize
  let startIndex := start % squareSize
  if startIndex > odsSize then .error (.startIndexOverOds startIndex odsSize) else
  let firtsRowShares := odsSize - startIndex
  if sharesLength = 0 then .error .sharesLengthZero else
  (show Except CelErr (Nat × Nat) from
  if sharesLength ≤ firtsRowShares then
    .ok (startRow, start + sharesLength - 1)
  else if firtsRowShares > sharesLength then
    .error (.firstRowSharesOverLength firtsRowShares sharesLength)
  else
    let remainingShares := sharesLength - firtsRowShares
    let rowsNeeded := remainingShares / odsSize
    let endRow := startRow + rowsNeeded +
      (if remainingShares % odsSize > 0 then 1 else 0)
    if sharesLength % squareSize > 0 then
      if remainingShares % odsSize < 1 then
        .error (.remainingModZero (remainingShares % odsSize))
      else
        .ok (endRow, endRow * odsSize + (remainingShares % odsSize - 1))
    else
      if endRow * odsSize < 1 then
        .error (.endRowTimesOdsZero (endRow * odsSize))
      else
        .ok (endRow, endRow * odsSize - 1)).bind
  (fun p =>
    let endRow := p.1
    let endIndex := p.2 % squareSize
    if startIndex > odsSize then .error (.startIndexOverOds startIndex odsSize)
    else if endIndex + 1 > odsSize then .error (.endIndexOverOds endIndex odsSize)
    else .ok (startRow, startIndex, endRow, endIndex))

/-- One iteration of the row loop of Read (lines 240-265): fetch the NMT
row content behind rowRoots[i], keep the original-data half, and select
the slice of shares this pop covers. Returns the full row and the
selected shares. -/
def celestiaRow (nmt : Hash → Except CelErr (List Bytes)) (rowRoots : List Hash)
    (odsSize startRow endRow startIndex endIndex i : Nat) :
    Except CelErr (List Bytes × List Bytes) := do
  let root ← goIndex rowRoots i
  let row ← nmt root
  if odsSize > row.length then
    throw (.odsOverRowLength odsSize row.length)
  let odsRow := row.take odsSize
  if startRow = endRow then
    if startIndex > endIndex + 1 then
      throw (.startOverEndPlusOne startIndex endIndex)
    else
      pure (row, (odsRow.drop startIndex).take (endIndex + 1 - startIndex))
  else if i = startRow then
    pure (row, odsRow.drop startIndex)
  else if i = endRow then
    pure (row, odsRow.take (endIndex + 1))
  else
    pure (row, odsRow)

/-- Strip the framing header of one share (loop body of lines 272-280):
trim the leading 29 bytes, then the sequence-length header of the first
share (NamespaceSize + 5 bytes) or the share-continuation header of a
later share (NamespaceSize + 1 bytes). Each Go slice can panic when the
share is too short. -/
def stripShare (isFirst : Bool) (share : Bytes) : Except CelErr Bytes := do
  let trimmed ← goSliceFrom share 29
  if isFirst then goSliceFrom trimmed (NamespaceSize + 5)
  else goSliceFrom trimmed (NamespaceSize + 1)

/-- Deframing step of Read (lines 267-284): read the big-endian sequence
length out of the first share, strip every share, concatenate in order,
check the sequence length against the concatenation, truncate. Indexing
shares[0] panics in Go when the share list is empty; only the first
share is length-checked before slicing. -/
def deframeShares (shares : List Bytes) : Except CelErr Bytes :=
  match shares with
  | [] => .error (.goPanic "index out of range")
  | s0 :: rest => do
    if NamespaceSize * 2 + 1 > s0.length ∨ NamespaceSize * 2 + 5 > s0.length then
      throw (.shortShare s0.length)
    let sequenceLength := beUint32 ((s0.drop (NamespaceSize * 2 + 1)).take 4)
    let first ← stripShare true s0
    let restStripped ← rest.mapM (stripShare false)
    let data := first ++ restStripped.flatten
    if sequenceLength > data.length then
      throw (.lengthMismatch sequenceLength data.length)
    pure (data.take sequenceLength)

/-- PreimageCelestiaReader.Read (cmd/replay/main.go lines 156-294),
parametrised by the resolved Merkle leaves behind the data root
(tree.MerkleTreeContent) and by the NMT row expansion (tree.NmtContent),
both of which live outside src/. Derives the square geometry, pulls the
covered rows, deframes the covered shares into the blob, and returns the
blob together with the SquareData witness. -/
def celestiaRead (leaves : List Hash) (nmt : Hash → Except CelErr (List Bytes))
    (ptr : BlobPointer) : Except CelErr (Bytes × SquareData) := do
  let squareSize := leaves.length / 2
  let rowRoots := leaves.take squareSize
  let odsSize := squareSize / 2
  let idx ← celestiaIndices squareSize ptr.start ptr.sharesLength
  let startRow := idx.1
  let startIndex := idx.2.1
  let endRow := idx.2.2.1
  let endIndex := idx.2.2.2
  let results ← (List.range' startRow (endRow - startRow + 1)).mapM
    (celestiaRow nmt rowRoots odsSize startRow endRow startIndex endIndex)
  let rows := results.map Prod.fst
  let shares := (results.map Prod.snd).flatten
  let data ← deframeShares shares
  pure (data, { rowRoots := rowRoots, columnRoots := leaves.drop squareSize,
                rows := rows, squareSize := squareSize,
                startRow := startRow, endRow := endRow })

/-! ## readMessage: DA selection and keyset validation mode -/

/-- The two Arbitrum chain-param flags readMessage consults
(params.ArbitrumChainParams). -/
structure ArbitrumChainParams where
  dataAvailabilityCommittee : Bool
  celestiaDA : Bool
deriving DecidableEq, Repr

/-- Keyset validation modes (arbstate.KeysetValidationMode). -/
inductive KeysetValidationMode where
  | panicIfInvalid
  | assumeValid
  | dontValidate
deriving DecidableEq, Repr

/-- The closed set of DA providers readMessage can construct
(arbstate.NewDAProviderDAS / NewDAProviderCelestia /
NewDAProviderBlobReader). -/
inductive DAProvider where
  | das
  | celestia
  | blobReader
deriving DecidableEq, Repr

/-- The arguments handed to arbstate.NewInboxMultiplexer. -/
structure InboxMultiplexerConfig where
  delayedMessagesRead : Nat
  daProviders : List DAProvider
  keysetValidationMode : KeysetValidationMode
deriving DecidableEq, Repr

/-- Setup phase of readMessage (cmd/replay/main.go lines 345-376):
recover delayedMessagesRead from the prior header nonce, refuse
conflicting DA flags before building any provider, pick the keyset
validation mode from the position within the message reported by the
backend, and assemble the ordered provider list ending in the
blob reader. The panic on conflicting flags is the error case. -/
def readMessageSetup (p : ArbitrumChainParams) (lastBlockHeaderNonce : Option Nat)
    (positionWithinMessage : Nat) : Except String InboxMultiplexerConfig :=
  let delayedMessagesRead := match lastBlockHeaderNonce with
    | some n => n
    | none => 0
  if p.dataAvailabilityCommittee && p.celestiaDA then
    .error "Error Multiple DA providers enabled"
  else
    let dasProviders : List DAProvider :=
      if p.dataAvailabilityCommittee then [.das] else []
    let celestiaProviders : List DAProvider :=
      if p.celestiaDA then [.celestia] else []
    let keysetValidationMode : KeysetValidationMode :=
      if positionWithinMessage > 0 then .dontValidate else .panicIfInvalid
    .ok { delayedMessagesRead := delayedMessagesRead,
          daProviders := dasProviders ++ celestiaProviders ++ [.blobReader],
          keysetValidationMode := keysetValidationMode }

/-! ## BlobPreimageReader.GetBlobs -/

/-- Errors of BlobPreimageReader.GetBlobs: either a propagated oracle
resolution error, or the length-mismatch error built by fmt.Errorf
with the requested hash and the length that came back. -/
inductive BlobErr where
  | resolveErr (msg : String)
  | badBlobLength (hash : Hash) (got : Nat)
deriving DecidableEq, Repr

/-- len(kzg4844.Blob): the fixed byte size of an EIP-4844 blob. -/
def BLOB_BYTES : Nat := 131072

/-- Loop body of BlobPreimageReader.GetBlobs for one versioned hash:
resolve it under the EthVersionedBlobHash preimage kind, propagate a
resolution error, and reject any preimage whose length differs from the
blob size. The copy into the fixed-size blob array after the
equal-length check is the identity. -/
def getBlob (resolve : PreimageKind → Hash → Except BlobErr Bytes)
    (h : Hash) : Except BlobErr Bytes := do
  let preimage ← resolve .ethVersionedBlobHash h
  if preimage.length ≠ BLOB_BYTES then
    throw (.badBlobLength h preimage.length)
  else
    pure preimage

/-- BlobPreimageReader.GetBlobs (cmd/replay/main.go lines 128-147):
resolve every versioned hash in list order and collect the blobs in
the same order, stopping at the first failure. -/
def getBlobs (resolve : PreimageKind → Hash → Except BlobErr Bytes)
    (versionedHashes : List Hash) : Except BlobErr (List Bytes) :=
  versionedHashes.mapM (getBlob resolve)

/-! ## Replay driver: final header check and oracle writes -/

/-- The part of the deserialized header extra information the driver
inspects (types.DeserializeHeaderExtraInformation). -/
structure HeaderExtraInfo where
  arbOSFormatVersion : Nat
  sendRoot : Hash
deriving DecidableEq, Repr

/-- The two oracle-sink writes of the replay driver. -/
inductive WavmWrite where
  | setLastBlockHash (h : Hash)
  | setSendRoot (h : Hash)
deriving DecidableEq, Repr

/-- Tail of main (cmd/replay/main.go lines 469-479): deserialize the
extra info of the produced header, abort fatally when its
ArbOSFormatVersion is zero, otherwise write the new block hash and the
send root to the oracle sink, in that order. -/
def finalizeBlock (newBlockHash : Hash) (extraInfo : HeaderExtraInfo) :
    Except String (List WavmWrite) :=
  if extraInfo.arbOSFormatVersion = 0 then
    .error "Error deserializing header extra info"
  else
    .ok [.setLastBlockHash newBlockHash, .setSendRoot extraInfo.sendRoot]

/-! ## WavmInbox.PeekSequencerInbox -/

/-- WavmInbox.PeekSequencerInbox (cmd/replay/main.go lines 69-75): read
the inbox slot at the current position and log its first eight bytes
via the slice expression res[:8], which is a Go runtime panic when the
payload is shorter than 8 bytes; otherwise return the full payload and
a zero block hash with no error. -/
def peekSequencerInbox (res : Bytes) : Except CelErr (Bytes × Hash) :=
  if 8 > res.length then .error (.goPanic "slice bounds out of range")
  else .ok (res, 0)

/-! ## SyncMonitor (arbnode/sync_monitor.go) -/

/-- The sync monitor configuration (SyncMonitorConfig). -/
structure SyncMonitorConfig where
  blockBuildLag : Nat
  blockBuildSequencerInboxLag : Nat
  coordinatorMsgLag : Nat
  safeBlockWaitForBlockValidator : Bool
  finalizedBlockWaitForBlockValidator : Bool
deriving DecidableEq, Repr

/-- Values stored in the sync progress map: strings (error texts) or
numbers (counts, block numbers, hashes). -/
inductive SyncVal where
  | s (v : String)
  | n (v : Nat)
deriving DecidableEq, Repr

/-- View of the inbox reader the sync monitor consults: last seen batch
count, last read batch count, the batch metadata lookup (returning the
MessageCount of the batch), and the optional L1 reader last header
result as (optional error text, optional header (number, hash)). -/
structure InboxReaderView where
  lastSeenBatchCount : Nat
  lastReadBatchCount : Nat
  getBatchMetadata : Nat → Except String Nat
  l1Reader : Option (Option String × Option (Nat × Hash))

/-- State of a SyncMonitor together with the answers of its
collaborators (execution client, transaction streamer, inbox reader,
coordinator), which live outside src/ and are modelled as recorded
results. getMessageCount carries both the returned count and the
optional error because the Go caller keeps using the returned count
after an error. -/
structure SyncMonitorView where
  initialized : Bool
  config : SyncMonitorConfig
  broadcasterQueuedMessagesPos : Nat
  headMessageNumber : Except String Nat
  messageIndexToBlockNumber : Nat → Nat
  getMessageCount : Nat × Option String
  inboxReader : Option InboxReaderView
  coordinator : Option (Except String Nat)
  validator : Option Nat
  getSafeMsgCount : Except String Nat
  getFinalizedMsgCount : Except String Nat

/-- SyncMonitor.SyncProgressMap (arbnode/sync_monitor.go lines 60-152).
Go map insertions with pairwise-distinct keys become an append-ordered
association list; the function returns the one-entry error map when the
monitor was never initialized, and an empty map when nothing set the
syncing flag. -/
def syncProgressMap (s : SyncMonitorView) : List (String × SyncVal) :=
  if s.initialized = false then [("err", SyncVal.s "uninitialized")]
  else
    let res0 : List (String × SyncVal) :=
      [("broadcasterQueuedMessagesPos", SyncVal.n s.broadcasterQueuedMessagesPos)]
    let syncing0 := s.broadcasterQueuedMessagesPos != 0
    let step1 : List (String × SyncVal) × Bool × Nat :=
      match s.headMessageNumber with
      | .error e => (res0 ++ [("builtMessageCountError", SyncVal.s e)], true, 0)
      | .ok n =>
        (res0 ++ [("blockNum", SyncVal.n (s.messageIndexToBlockNumber n)),
                  ("messageOfLastBlock", SyncVal.n (n + 1))], syncing0, n + 1)
    let res1 := step1.1
    let syncing1 := step1.2.1
    let builtMessageCount := step1.2.2
    let msgCount := s.getMessageCount.1
    let step2 : List (String × SyncVal) × Bool :=
      match s.getMessageCount.2 with
      | some e => (res1 ++ [("msgCountError", SyncVal.s e)], true)
      | none =>
        (res1 ++ [("msgCount", SyncVal.n msgCount)],
         syncing1 || decide (builtMessageCount + s.config.blockBuildLag < msgCount))
    let res2 := step2.1
    let syncing2 := step2.2
    let step3 : List (String × SyncVal) × Bool :=
      match s.inboxReader with
      | none => (res2, syncing2)
      | some ir =>
        let syncing3 := syncing2 || decide (ir.lastSeenBatchCount = 0) ||
          decide (ir.lastReadBatchCount < ir.lastSeenBatchCount)
        let res3 := res2 ++ [("batchSeen", SyncVal.n ir.lastSeenBatchCount),
                             ("batchProcessed", SyncVal.n ir.lastReadBatchCount)]
        let step4 : List (String × SyncVal) × Bool :=
          match ir.getBatchMetadata ((ir.lastReadBatchCount + (U64MOD - 1)) % U64MOD) with
          | .error e => (res3 ++ [("batchMetadataError", SyncVal.s e)], true)
          | .ok mc =>
            (res3 ++ [("messageOfProcessedBatch", SyncVal.n mc)],
             syncing3 || decide (builtMessageCount + s.config.blockBuildSequencerInboxLag < mc))
        match ir.l1Reader with
        | none => step4
        | some l1 =>
          (step4.1 ++
            (match l1.1 with
             | some e => [("lastL1HeaderErr", SyncVal.s e)]
             | none => []) ++
            (match l1.2 with
             | some hdr => [("lastL1BlockNum", SyncVal.n hdr.1),
                            ("lastl1BlockHash", SyncVal.n hdr.2)]
             | none => []), step4.2)
    let res4 := step3.1
    let syncing4 := step3.2
    let step5 : List (String × SyncVal) × Bool :=
      match s.coordinator with
      | none => (res4, syncing4)
      | some (.error e) => (res4 ++ [("coordinatorMsgCountError", SyncVal.s e)], true)
      | some (.ok c) =>
        (res4 ++ [("coordinatorMessageCount", SyncVal.n c)],
         syncing4 || decide (msgCount + s.config.coordinatorMsgLag < c))
    if step5.2 = false then [] else step5.1

/-- SyncMonitor.Synced (lines 205-207): true exactly when the progress
map has size zero. -/
def synced (s : SyncMonitorView) : Bool :=
  (syncProgressMap s).length == 0

/-- SyncMonitor.getLatestValidatedCount (lines 176-181): error when no
validator is set up, otherwise the validated count. -/
def getLatestValidatedCount (s : SyncMonitorView) : Except String Nat :=
  match s.validator with
  | none => .error "validator not set up"
  | some v => .ok v

/-- SyncMonitor.SafeBlockNumber (lines 154-174): guard on setup, read
the safe message count, optionally clamp it to the latest validated
count, then return MessageIndexToBlockNumber of msg - 1, where the
subtraction is unchecked unsigned 64-bit arithmetic, modelled as
addition of U64MOD - 1 modulo U64MOD. -/
def safeBlockNumber (s : SyncMonitorView) : Except String Nat := do
  if s.inboxReader.isNone || !s.initialized then
    throw "not set up for safeblock"
  let msg0 ← s.getSafeMsgCount
  let msg ←
    if s.config.safeBlockWaitForBlockValidator then do
      let latestValidatedCount ← getLatestValidatedCount s
      pure (if msg0 > latestValidatedCount then latestValidatedCount else msg0)
    else
      pure msg0
  pure (s.messageIndexToBlockNumber ((msg + (U64MOD - 1)) % U64MOD))

/-- SyncMonitor.FinalizedBlockNumber (lines 183-203): same shape as
SafeBlockNumber over the finalized message count and the finalized
wait flag of the configuration. -/
def finalizedBlockNumber (s : SyncMonitorView) : Except String Nat := do
  if s.inboxReader.isNone || !s.initialized then
    throw "not set up for safeblock"
  let msg0 ← s.getFinalizedMsgCount
  let msg ←
    if s.config.finalizedBlockWaitForBlockValidator then do
      let latestValidatedCount ← getLatestValidatedCount s
      pure (if msg0 > latestValidatedCount then latestValidatedCount else msg0)
    else
      pure msg0
  pure (s.messageIndexToBlockNumber ((msg + (U64MOD - 1)) % U64MOD))

/-! ## Witness inputs and claim-language descriptions -/

/-- Claim-language payload of the deframing step (spec 4.3 step 5):
every share loses its leading 29 bytes, the first share additionally
NamespaceSize + 5 bytes, each later share NamespaceSize + 1 bytes, and
the stripped shares are concatenated in order. -/
def strippedConcat (s0 : Bytes) (rest : List Bytes) : Bytes :=
  (s0.drop 29).drop (NamespaceSize + 5) ++
    (rest.map (fun s => (s.drop 29).drop (NamespaceSize + 1))).flatten

/-- Claim-language big-endian sequence length parsed from the header of
the first share. -/
def firstShareSeqLen (s0 : Bytes) : Nat :=
  beUint32 ((s0.drop (NamespaceSize * 2 + 1)).take 4)

/-- Concrete first share for witnesses: 59 zero header bytes, the
big-endian sequence length 2, then a 2-byte payload. -/
def wFirstShare : Bytes := List.replicate 59 0 ++ [0, 0, 0, 2] ++ [7, 8]

/-- Concrete first share of 63 zero bytes (sequence length 0), used in
the short-second-share failing input. -/
def wZeroShare : Bytes := List.replicate 63 0

/-- Concrete Merkle leaves list of length 8 (square size 4). -/
def wLeaves : List Hash := List.range 8

/-- Trivial NMT expansion used by witnesses; never reached on the
failing pointer. -/
def wNmt : Hash → Except CelErr (List Bytes) := fun _ => .ok []

/-- The blob pointer of the spec example: start 1, shares length 2. -/
def wPointer : BlobPointer := ⟨0, 1, 2, 0, 0⟩

/-- Oracle answering every versioned-hash query with a one-byte buffer. -/
def wShortResolve : PreimageKind → Hash → Except BlobErr Bytes := fun _ _ => .ok [1]

/-- Oracle answering every versioned-hash query with a full-size blob of
zero bytes. -/
def wBlobResolve : PreimageKind → Hash → Except BlobErr Bytes :=
  fun _ _ => .ok (List.replicate BLOB_BYTES 0)

/-- Sync monitor view whose Initialize was never called. -/
def wUninitView : SyncMonitorView where
  initialized := false
  config := ⟨20, 0, 15, false, false⟩
  broadcasterQueuedMessagesPos := 0
  headMessageNumber := .ok 0
  messageIndexToBlockNumber := fun n => n
  getMessageCount := (0, none)
  inboxReader := none
  coordinator := none
  validator := none
  getSafeMsgCount := .ok 0
  getFinalizedMsgCount := .ok 0

/-- Initialized sync monitor view whose safe and finalized message
counts are zero. -/
def wZeroCountView : SyncMonitorView where
  initialized := true
  config := ⟨20, 0, 15, false, false⟩
  broadcasterQueuedMessagesPos := 0
  headMessageNumber := .ok 0
  messageIndexToBlockNumber := fun n => n
  getMessageCount := (0, none)
  inboxReader := some ⟨1, 1, fun _ => .error "no metadata", none⟩
  coordinator := none
  validator := some 0
  getSafeMsgCount := .ok 0
  getFinalizedMsgCount := .ok 0

/-- Initialized sync monitor view with the wait-for-validator flags set,
a validated count of zero and nonzero safe and finalized message
counts, so the validator clamp takes the counts to zero. -/
def wWaitView : SyncMonitorView where
  initialized := true
  config := ⟨20, 0, 15, true, true⟩
  broadcasterQueuedMessagesPos := 0
  headMessageNumber := .ok 0
  messageIndexToBlockNumber := fun n => n
  getMessageCount := (0, none)
  inboxReader := some ⟨1, 1, fun _ => .error "no metadata", none⟩
  coordinator := none
  validator := some 0
  getSafeMsgCount := .ok 7
  getFinalizedMsgCount := .ok 7

/-! ## Helper lemmas -/

/-- Bind of a successful Except computation. -/
theorem exceptBind_ok {ε α β : Type} (a : α) (f : α → Except ε β) :
    (Except.ok a : Except ε α) >>= f = f a := rfl

/-- Bind of a failed Except computation. -/
theorem exceptBind_error {ε α β : Type} (e : ε) (f : α → Except ε β) :
    (Except.error e : Except ε α) >>= f = .error e := rfl

/-- Evaluation of the index arithmetic on the spec example: square size
4, start 1, shares length 2 end in the endIndex bound check failing,
because endIndex is computed as endRow * odsSize + (remainder - 1) = 2,
not as the within-row index 0. -/
theorem celestiaIndices_4_1_2 :
    celestiaIndices 4 1 2 = .error (.endIndexOverOds 2 2) := rfl

/-- Claim C1: refuted by the code (code bug). For every data-root tree
of 8 leaves (square size 4, ods size 2) and every pointer with start 1
and shares length 2, PreimageCelestiaReader.Read derives endRow 1 but
endIndex 2 instead of the expected 0, fails its own endIndex bound
check, and returns an error instead of succeeding with one share from
row 0 index 1 and one share from row 1 index 0 as the spec requires. -/
theorem celestiaRead_two_row_example_errors (leaves : List Hash)
    (nmt : Hash → Except CelErr (List Bytes)) (bh tc dr : Nat)
    (h : leaves.length = 8) :
    celestiaRead leaves nmt ⟨bh, 1, 2, tc, dr⟩ =
      .error (.endIndexOverOds 2 2) := by
  simp only [celestiaRead, h]
  norm_num
  rw [celestiaIndices_4_1_2]
  rfl

/-- Witness for C1: the failing input evaluated on concrete leaves and
a concrete NMT expansion. -/
theorem celestiaRead_two_row_example_errors_witness :
    celestiaRead wLeaves wNmt wPointer = .error (.endIndexOverOds 2 2) :=
  celestiaRead_two_row_example_errors wLeaves wNmt 0 0 0 (by decide)

/-- Claim C2, counterexample: the claim that exactly one of the two DA
flags holds for every replay that completes is false, because
readMessage completes with both flags false (for example on the genesis
path, which passes empty chain params), constructing only the
blob-reader provider. -/
theorem readMessageSetup_exactly_one_refuted :
    ¬ (∀ (p : ArbitrumChainParams) (nonce : Option Nat) (pos : Nat)
          (cfg : InboxMultiplexerConfig),
        readMessageSetup p nonce pos = .ok cfg →
        p.dataAvailabilityCommittee ≠ p.celestiaDA) := by
  intro hall
  exact hall ⟨false, false⟩ none 0 ⟨0, [.blobReader], .panicIfInvalid⟩ rfl rfl

/-- Claim C2 (amended): at most one of DataAvailabilityCommittee and
CelestiaDA is true for any replay that completes; if both are true,
readMessage aborts fatally with the conflicting-DA panic before
constructing any DA provider. -/
theorem readMessageSetup_at_most_one_da (p : ArbitrumChainParams)
    (nonce : Option Nat) (pos : Nat) :
    (p.dataAvailabilityCommittee = true → p.celestiaDA = true →
      readMessageSetup p nonce pos = .error "Error Multiple DA providers enabled")
    ∧ (∀ cfg, readMessageSetup p nonce pos = .ok cfg →
        ¬(p.dataAvailabilityCommittee = true ∧ p.celestiaDA = true)) := by
  constructor
  · intro h1 h2
    simp [readMessageSetup, h1, h2]
  · rintro cfg hok ⟨h1, h2⟩
    simp [readMessageSetup, h1, h2] at hok

/-- Witness for C2: both flags set aborts with the conflicting-DA
error, and a completing setup does not have both flags set. -/
theorem readMessageSetup_at_most_one_da_witness :
    readMessageSetup ⟨true, true⟩ none 0 =
      .error "Error Multiple DA providers enabled" ∧
    ¬((ArbitrumChainParams.mk false true).dataAvailabilityCommittee = true ∧
      (ArbitrumChainParams.mk false true).celestiaDA = true) :=
  ⟨(readMessageSetup_at_most_one_da ⟨true, true⟩ none 0).1 rfl rfl,
   (readMessageSetup_at_most_one_da ⟨false, true⟩ none 0).2
     ⟨0, [.celestia, .blobReader], .panicIfInvalid⟩ rfl⟩

/-- Claim C3: for every pop that reaches multiplexer construction, the
keyset validation mode handed to the inbox multiplexer is DontValidate
exactly when the backend reports a positive position within the
message, and PanicIfInvalid when it reports zero; the mode is a single
value fixed in the configuration before the multiplexer is built. -/
theorem readMessageSetup_keyset_mode (p : ArbitrumChainParams)
    (nonce : Option Nat) (pos : Nat) (cfg : InboxMultiplexerConfig)
    (hok : readMessageSetup p nonce pos = .ok cfg) :
    (cfg.keysetValidationMode = .dontValidate ↔ pos > 0) ∧
    (pos = 0 → cfg.keysetValidationMode = .panicIfInvalid) := by
  by_cases hb : (p.dataAvailabilityCommittee && p.celestiaDA) = true
  · simp [readMessageSetup, hb] at hok
  · simp only [readMessageSetup, hb, if_false, Bool.false_eq_true, ite_false] at hok
    injection hok with hcfg
    subst hcfg
    constructor
    · constructor
      · intro hdv
        by_contra hp
        simp at hdv hp
        simp [hp] at hdv
      · intro hp
        simp [hp]
    · intro hp
      simp [hp]

/-- Witness for C3: a resumed pop (position 5) yields DontValidate. -/
theorem readMessageSetup_keyset_mode_witness :
    ((InboxMultiplexerConfig.mk 0 [DAProvider.blobReader]
        KeysetValidationMode.dontValidate).keysetValidationMode =
      KeysetValidationMode.dontValidate ↔ 5 > 0) ∧
    (5 = 0 → (InboxMultiplexerConfig.mk 0 [DAProvider.blobReader]
        KeysetValidationMode.dontValidate).keysetValidationMode =
      KeysetValidationMode.panicIfInvalid) :=
  readMessageSetup_keyset_mode ⟨false, false⟩ none 5
    ⟨0, [.blobReader], .dontValidate⟩ rfl

/-- A long-enough non-first share strips to its payload. -/
theorem stripShare_false_ok (s : Bytes) (h : 29 + (NamespaceSize + 1) ≤ s.length) :
    stripShare false s = .ok ((s.drop 29).drop (NamespaceSize + 1)) := by
  have hNS : NamespaceSize = 29 := rfl
  rw [hNS] at h ⊢
  have h1 : ¬ 29 > s.length := by omega
  have h2 : ¬ 30 > s.length - 29 := by omega
  simp [stripShare, goSliceFrom, hNS, h1, h2, exceptBind_ok]

/-- A long-enough first share strips to its payload. -/
theorem stripShare_true_ok (s : Bytes) (h : 29 + (NamespaceSize + 5) ≤ s.length) :
    stripShare true s = .ok ((s.drop 29).drop (NamespaceSize + 5)) := by
  have hNS : NamespaceSize = 29 := rfl
  rw [hNS] at h ⊢
  have h1 : ¬ 29 > s.length := by omega
  have h2 : ¬ 34 > s.length - 29 := by omega
  simp [stripShare, goSliceFrom, hNS, h1, h2, exceptBind_ok]

/-- Stripping all non-first shares succeeds when each is long enough. -/
theorem mapM_stripShare_ok (rest : List Bytes)
    (hr : ∀ s ∈ rest, 29 + (NamespaceSize + 1) ≤ s.length) :
    rest.mapM (stripShare false) =
      .ok (rest.map (fun s => (s.drop 29).drop (NamespaceSize + 1))) := by
  induction rest with
  | nil => rfl
  | cons a as ih =>
    rw [List.mapM_cons, stripShare_false_ok a (hr a (by simp)), exceptBind_ok,
        ih (fun s hs => hr s (by simp [hs])), exceptBind_ok]
    rfl

/-- Claim C4: on shares long enough for their required headers, the
deframing step strips the leading 29 bytes of every share, additionally
NamespaceSize + 5 bytes of the first and NamespaceSize + 1 bytes of
each later share, concatenates in order and truncates to the big-endian
sequence length of the first share; a sequence length exceeding the
concatenated length yields the length-mismatch error, and an exactly
equal one drops no byte. -/
theorem deframeShares_strip_truncate (s0 : Bytes) (rest : List Bytes)
    (h0 : NamespaceSize * 2 + 5 ≤ s0.length)
    (hr : ∀ s ∈ rest, 29 + (NamespaceSize + 1) ≤ s.length) :
    (firstShareSeqLen s0 > (strippedConcat s0 rest).length →
      deframeShares (s0 :: rest) =
        .error (.lengthMismatch (firstShareSeqLen s0) (strippedConcat s0 rest).length))
    ∧ (firstShareSeqLen s0 ≤ (strippedConcat s0 rest).length →
      deframeShares (s0 :: rest) =
        .ok ((strippedConcat s0 rest).take (firstShareSeqLen s0)))
    ∧ (firstShareSeqLen s0 = (strippedConcat s0 rest).length →
      deframeShares (s0 :: rest) = .ok (strippedConcat s0 rest)) := by
  have hshort : ¬ (NamespaceSize * 2 + 1 > s0.length ∨ NamespaceSize * 2 + 5 > s0.length) := by
    simp [NamespaceSize] at h0 ⊢
    omega
  have hfirst : stripShare true s0 = .ok ((s0.drop 29).drop (NamespaceSize + 5)) :=
    stripShare_true_ok s0 (by simp [NamespaceSize] at h0 ⊢; omega)
  have hrest := mapM_stripShare_ok rest hr
  have key : deframeShares (s0 :: rest) =
      if firstShareSeqLen s0 > (strippedConcat s0 rest).length then
        .error (.lengthMismatch (firstShareSeqLen s0) (strippedConcat s0 rest).length)
      else .ok ((strippedConcat s0 rest).take (firstShareSeqLen s0)) := by
    simp only [deframeShares]
    rw [if_neg hshort, hfirst, exceptBind_ok, hrest, exceptBind_ok]
    rfl
  refine ⟨?_, ?_, ?_⟩
  · intro hgt
    rw [key, if_pos hgt]
  · intro hle
    rw [key, if_neg (by omega)]
  · intro heq
    rw [key, if_neg (by omega), heq, List.take_length]

/-- Witness for C4: a single 65-byte share with sequence length 2
deframes to its exact 2-byte payload with no truncation. -/
theorem deframeShares_strip_truncate_witness :
    deframeShares [wFirstShare] = .ok (strippedConcat wFirstShare []) :=
  (deframeShares_strip_truncate wFirstShare [] (by decide)
    (by intro s hs; cases hs)).2.2 (by decide)

/-- Claim C5: refuted by the code (code bug). Only the first share is
length-checked; a non-first share shorter than its required
29 + NamespaceSize + 1 header bytes makes the deframing loop slice out
of range, a Go runtime panic, instead of terminating with a ShortShare
error value: here an empty second share. -/
theorem deframeShares_short_second_share_panics :
    deframeShares [wZeroShare, []] = .error (.goPanic "slice bounds out of range") := by
  rfl

/-- A single hash resolves to a blob exactly when the oracle answers
with a buffer of exactly the blob size. -/
theorem getBlob_ok_iff (resolve : PreimageKind → Hash → Except BlobErr Bytes)
    (h : Hash) (b : Bytes) :
    getBlob resolve h = .ok b ↔
      resolve .ethVersionedBlobHash h = .ok b ∧ b.length = BLOB_BYTES := by
  constructor
  · intro hok
    simp only [getBlob] at hok
    cases hres : resolve .ethVersionedBlobHash h with
    | error e => rw [hres] at hok; cases hok
    | ok p =>
      rw [hres, exceptBind_ok] at hok
      by_cases hlen : p.length = BLOB_BYTES
      · rw [if_neg (by simp [hlen])] at hok
        injection hok with hpb
        subst hpb
        exact ⟨rfl, hlen⟩
      · rw [if_pos (by simp [hlen])] at hok
        cases hok
  · rintro ⟨hres, hlen⟩
    simp only [getBlob]
    rw [hres, exceptBind_ok, if_neg (by simp [hlen])]
    rfl

/-- A successful GetBlobs returns one blob per hash, in list order, each
resolved under the versioned-blob kind and of exactly the blob size. -/
theorem getBlobs_ok_elem (resolve : PreimageKind → Hash → Except BlobErr Bytes) :
    ∀ (hashes : List Hash) (blobs : List Bytes),
      getBlobs resolve hashes = .ok blobs →
      blobs.length = hashes.length ∧
      ∀ (i : Nat) (hi : i < hashes.length) (hb : i < blobs.length),
        resolve .ethVersionedBlobHash (hashes.get ⟨i, hi⟩) = .ok (blobs.get ⟨i, hb⟩) ∧
        (blobs.get ⟨i, hb⟩).length = BLOB_BYTES := by
  intro hashes
  induction hashes with
  | nil =>
    intro blobs hok
    simp only [getBlobs, List.mapM_nil] at hok
    cases hok
    exact ⟨rfl, fun i hi hb => absurd hi (by simp)⟩
  | cons a as ih =>
    intro blobs hok
    simp only [getBlobs, List.mapM_cons] at hok
    cases hres : getBlob resolve a with
    | error e => rw [hres] at hok; cases hok
    | ok p =>
      rw [hres, exceptBind_ok] at hok
      cases hrec : as.mapM (getBlob resolve) with
      | error e => rw [hrec] at hok; cases hok
      | ok bs =>
        rw [hrec] at hok
        cases hok
        have hih := ih bs hrec
        have hhead := (getBlob_ok_iff resolve a p).mp hres
        refine ⟨by simpa using hih.1, ?_⟩
        intro i hi hb
        cases i with
        | zero => exact hhead
        | succ j =>
          exact hih.2 j (by simpa using hi) (by simpa using hb)

/-- When every hash resolves but some resolved preimage has the wrong
length, GetBlobs fails with a bad-blob-length error. -/
theorem getBlobs_bad_length_errors (resolve : PreimageKind → Hash → Except BlobErr Bytes) :
    ∀ (hashes : List Hash),
      (∀ h ∈ hashes, ∃ b, resolve .ethVersionedBlobHash h = .ok b) →
      (∃ h b, h ∈ hashes ∧ resolve .ethVersionedBlobHash h = .ok b ∧
        b.length ≠ BLOB_BYTES) →
      ∃ hh n, getBlobs resolve hashes = .error (.badBlobLength hh n) ∧
        n ≠ BLOB_BYTES := by
  intro hashes
  induction hashes with
  | nil =>
    rintro _ ⟨h, b, hm, _⟩
    cases hm
  | cons a as ih =>
    rintro hall ⟨h, b, hm, hres, hlen⟩
    obtain ⟨pa, hpa⟩ := hall a (by simp)
    by_cases hpalen : pa.length = BLOB_BYTES
    · have hhd : getBlob resolve a = .ok pa := by
        simp only [getBlob]
        rw [hpa, exceptBind_ok, if_neg (by simp [hpalen])]
        rfl
      have hbad : ∃ h b, h ∈ as ∧ resolve .ethVersionedBlobHash h = .ok b ∧
          b.length ≠ BLOB_BYTES := by
        rcases List.mem_cons.mp hm with rfl | hmem
        · rw [hres] at hpa
          cases hpa
          exact absurd hpalen hlen
        · exact ⟨h, b, hmem, hres, hlen⟩
      obtain ⟨hh, n, hrec, hn⟩ := ih (fun x hx => hall x (by simp [hx])) hbad
      refine ⟨hh, n, ?_, hn⟩
      simp only [getBlobs, List.mapM_cons] at hrec ⊢
      rw [hhd, exceptBind_ok, hrec]
      rfl
    · refine ⟨a, pa.length, ?_, hpalen⟩
      have hhd : getBlob resolve a = .error (.badBlobLength a pa.length) := by
        simp only [getBlob]
        rw [hpa, exceptBind_ok, if_pos (by simp [hpalen])]
        rfl
      simp only [getBlobs, List.mapM_cons]
      rw [hhd]
      rfl

/-- Claim C6: GetBlobs resolves each versioned hash under the
EthVersionedBlobHash kind and returns one blob per hash in list order,
each of exactly 131072 bytes; when every hash resolves but some
resolved preimage has a different length, the call returns a
bad-blob-length error and no blob list. -/
theorem getBlobs_list_order_and_length
    (resolve : PreimageKind → Hash → Except BlobErr Bytes) (hashes : List Hash) :
    (∀ blobs, getBlobs resolve hashes = .ok blobs →
      blobs.length = hashes.length ∧
      ∀ (i : Nat) (hi : i < hashes.length) (hb : i < blobs.length),
        resolve .ethVersionedBlobHash (hashes.get ⟨i, hi⟩) = .ok (blobs.get ⟨i, hb⟩) ∧
        (blobs.get ⟨i, hb⟩).length = BLOB_BYTES)
    ∧ ((∀ h ∈ hashes, ∃ b, resolve .ethVersionedBlobHash h = .ok b) →
      (∃ h b, h ∈ hashes ∧ resolve .ethVersionedBlobHash h = .ok b ∧
        b.length ≠ BLOB_BYTES) →
      ∃ hh n, getBlobs resolve hashes = .error (.badBlobLength hh n) ∧
        n ≠ BLOB_BYTES) :=
  ⟨fun blobs hok => getBlobs_ok_elem resolve hashes blobs hok,
   fun hall hbad => getBlobs_bad_length_errors resolve hashes hall hbad⟩

/-- Witness for C6: a full-length resolution keeps the one-blob list,
and a 1-byte resolution (the spec scenario of a 131071-byte buffer
scaled down) fails with the bad-blob-length error. -/
theorem getBlobs_list_order_and_length_witness :
    [List.replicate BLOB_BYTES 0].length = [(5 : Nat)].length ∧
    (∃ hh n, getBlobs wShortResolve [7] = .error (.badBlobLength hh n) ∧
      n ≠ BLOB_BYTES) :=
  ⟨((getBlobs_list_order_and_length wBlobResolve [5]).1 [List.replicate BLOB_BYTES 0]
      (by have h1 : getBlob wBlobResolve 5 = .ok (List.replicate BLOB_BYTES 0) :=
            (getBlob_ok_iff wBlobResolve 5 (List.replicate BLOB_BYTES 0)).mpr
              ⟨rfl, List.length_replicate BLOB_BYTES 0⟩
          simp only [getBlobs, List.mapM_cons, List.mapM_nil]
          rw [h1, exceptBind_ok]
          rfl)).1,
   (getBlobs_list_order_and_length wShortResolve [7]).2
     (fun h hm => ⟨[1], rfl⟩)
     ⟨7, [1], by simp, rfl, by decide⟩⟩

/-- Claim C7: after a block is produced, a deserialized
ArbOSFormatVersion of zero aborts the replay fatally before any sink
write, and every nonzero version passes the check and writes the new
block hash and the send root to the oracle sink. -/
theorem finalizeBlock_version_check (newBlockHash : Hash) (e : HeaderExtraInfo) :
    (e.arbOSFormatVersion = 0 →
      finalizeBlock newBlockHash e = .error "Error deserializing header extra info")
    ∧ (e.arbOSFormatVersion ≠ 0 →
      finalizeBlock newBlockHash e =
        .ok [.setLastBlockHash newBlockHash, .setSendRoot e.sendRoot]) := by
  constructor
  · intro h
    simp [finalizeBlock, h]
  · intro h
    simp [finalizeBlock, h]

/-- Witness for C7: version 0 aborts, version 1 writes hash then send
root. -/
theorem finalizeBlock_version_check_witness :
    finalizeBlock 5 ⟨0, 9⟩ = .error "Error deserializing header extra info" ∧
    finalizeBlock 5 ⟨1, 9⟩ = .ok [.setLastBlockHash 5, .setSendRoot 9] :=
  ⟨(finalizeBlock_version_check 5 ⟨0, 9⟩).1 rfl,
   (finalizeBlock_version_check 5 ⟨1, 9⟩).2 (by decide)⟩

/-- Claim C8: PeekSequencerInbox panics through the res[:8] log slice
on every inbox slot payload shorter than 8 bytes, and on every payload
of at least 8 bytes returns the full payload and a zero block hash with
no error. -/
theorem peekSequencerInbox_spec (res : Bytes) :
    (res.length < 8 →
      peekSequencerInbox res = .error (.goPanic "slice bounds out of range"))
    ∧ (8 ≤ res.length → peekSequencerInbox res = .ok (res, 0)) := by
  constructor
  · intro h
    unfold peekSequencerInbox
    rw [if_pos h]
  · intro h
    unfold peekSequencerInbox
    rw [if_neg (by omega)]

/-- Witness for C8: a 3-byte payload panics, an 8-byte payload is
returned whole with a zero hash. -/
theorem peekSequencerInbox_spec_witness :
    peekSequencerInbox [1, 2, 3] = .error (.goPanic "slice bounds out of range") ∧
    peekSequencerInbox [1, 2, 3, 4, 5, 6, 7, 8] = .ok ([1, 2, 3, 4, 5, 6, 7, 8], 0) :=
  ⟨(peekSequencerInbox_spec [1, 2, 3]).1 (by decide),
   (peekSequencerInbox_spec [1, 2, 3, 4, 5, 6, 7, 8]).2 (by decide)⟩

/-- Claim C9: Synced returns true exactly when SyncProgressMap returns
an empty map, and a monitor whose Initialize was never called reports
exactly the one-entry error map and is not synced. -/
theorem synced_iff_empty_map (s : SyncMonitorView) :
    (synced s = true ↔ syncProgressMap s = [])
    ∧ (s.initialized = false →
      syncProgressMap s = [("err", SyncVal.s "uninitialized")] ∧ synced s = false) := by
  constructor
  · simp [synced, List.length_eq_zero]
  · intro h
    constructor
    · simp [syncProgressMap, h]
    · simp [synced, syncProgressMap, h]

/-- Witness for C9: the uninitialized view reports the error map and is
not synced. -/
theorem synced_iff_empty_map_witness :
    syncProgressMap wUninitView = [("err", SyncVal.s "uninitialized")] ∧
    synced wUninitView = false :=
  (synced_iff_empty_map wUninitView).2 rfl

/-- Claim C10: SafeBlockNumber and FinalizedBlockNumber compute the
argument of MessageIndexToBlockNumber as msg - 1 with unchecked
unsigned 64-bit subtraction: whenever the message count, directly or
after the validator clamp, is zero, the argument wraps to 2^64 - 1 and
the call succeeds instead of returning an error. -/
theorem blockNumber_wraps_on_zero_count (s : SyncMonitorView)
    (hr : s.inboxReader.isSome = true) (hi : s.initialized = true) :
    (s.getSafeMsgCount = .ok 0 →
      s.config.safeBlockWaitForBlockValidator = false →
      safeBlockNumber s = .ok (s.messageIndexToBlockNumber (U64MOD - 1)))
    ∧ (s.config.safeBlockWaitForBlockValidator = true → s.validator = some 0 →
      ∀ m, s.getSafeMsgCount = .ok m →
      safeBlockNumber s = .ok (s.messageIndexToBlockNumber (U64MOD - 1)))
    ∧ (s.getFinalizedMsgCount = .ok 0 →
      s.config.finalizedBlockWaitForBlockValidator = false →
      finalizedBlockNumber s = .ok (s.messageIndexToBlockNumber (U64MOD - 1)))
    ∧ (s.config.finalizedBlockWaitForBlockValidator = true → s.validator = some 0 →
      ∀ m, s.getFinalizedMsgCount = .ok m →
      finalizedBlockNumber s = .ok (s.messageIndexToBlockNumber (U64MOD - 1))) := by
  have hnone : s.inboxReader.isNone = false := by
    cases hir : s.inboxReader with
    | none => rw [hir] at hr; cases hr
    | some ir => rfl
  have hmod : (0 + (U64MOD - 1)) % U64MOD = U64MOD - 1 := by
    rw [Nat.zero_add]
    exact Nat.mod_eq_of_lt (by unfold U64MOD; omega)
  refine ⟨?_, ?_, ?_, ?_⟩
  · intro hs0 hw
    simp [safeBlockNumber, hnone, hi, hs0, hw, exceptBind_ok, hmod]
  · intro hw hv m hsm
    have hlv : getLatestValidatedCount s = .ok 0 := by
      simp [getLatestValidatedCount, hv]
    have hclamp : (if m > 0 then 0 else m) = 0 := by
      split <;> omega
    simp [safeBlockNumber, hnone, hi, hsm, hw, hlv, exceptBind_ok, hclamp, hmod]
  · intro hs0 hw
    simp [finalizedBlockNumber, hnone, hi, hs0, hw, exceptBind_ok, hmod]
  · intro hw hv m hsm
    have hlv : getLatestValidatedCount s = .ok 0 := by
      simp [getLatestValidatedCount, hv]
    have hclamp : (if m > 0 then 0 else m) = 0 := by
      split <;> omega
    simp [finalizedBlockNumber, hnone, hi, hsm, hw, hlv, exceptBind_ok, hclamp, hmod]

/-- Witness for C10: both accessors, with and without the validator
clamp, return the block number computed from 2^64 - 1. -/
theorem blockNumber_wraps_on_zero_count_witness :
    safeBlockNumber wZeroCountView = .ok (U64MOD - 1) ∧
    finalizedBlockNumber wZeroCountView = .ok (U64MOD - 1) ∧
    safeBlockNumber wWaitView = .ok (U64MOD - 1) ∧
    finalizedBlockNumber wWaitView = .ok (U64MOD - 1) :=
  ⟨(blockNumber_wraps_on_zero_count wZeroCountView rfl rfl).1 rfl rfl,
   (blockNumber_wraps_on_zero_count wZeroCountView rfl rfl).2.2.1 rfl rfl,
   (blockNumber_wraps_on_zero_count wWaitView rfl rfl).2.1 rfl rfl 7 rfl,
   (blockNumber_wraps_on_zero_count wWaitView rfl rfl).2.2.2 rfl rfl 7 rfl⟩
